import Mathlib

/-!
# Verification of the SVG diagram engine of the ef1p repository

This file gives a shallow embedding of the connector/alignment logic of
`code/svg/elements/line.ts` (present in the repository) together with the
geometric primitives it relies on (`Point`, `Box`, markers, text-size
estimation), and proves the specified properties about them.

The repository snapshot contains `line.ts` (the `Line` element with
`determineAlignment`, `Line.text`, `Line.shorten`, `ConnectionLine` and
`DiagonalLine`) and the diagram scripts calling it.  The helper modules
`point.ts`, `box.ts`, `marker.ts`, `circle.ts`, `ellipse.ts`, `text.ts` and
`constants.ts` are not part of the snapshot; the definitions below that stand
for them are modelled from the specification and say so in their doc comment.

Real-valued (floating point in the source) coordinates are embedded as `ℝ`;
the failure mode of `normalize` on a zero vector (a domain error per the
specification) is embedded as `Option`.
-/

namespace SvgEngine

noncomputable section

/-- Modelled from the spec: the immutable pair of real-valued coordinates of
`point.ts` (missing from the snapshot), §3 of the specification. -/
structure Point where
  x : ℝ
  y : ℝ

/-- Modelled from the spec: vector addition of `point.ts`. -/
def Point.add (p q : Point) : Point := ⟨p.x + q.x, p.y + q.y⟩

/-- Modelled from the spec: vector subtraction of `point.ts`. -/
def Point.subtract (p q : Point) : Point := ⟨p.x - q.x, p.y - q.y⟩

/-- Modelled from the spec: scalar scaling of `point.ts`. -/
def Point.multiply (p : Point) (factor : ℝ) : Point := ⟨p.x * factor, p.y * factor⟩

/-- Modelled from the spec: scalar division of `point.ts`. -/
def Point.divide (p : Point) (factor : ℝ) : Point := ⟨p.x / factor, p.y / factor⟩

/-- Modelled from the spec: component-wise absolute value of `point.ts`, §3. -/
def Point.absolute (p : Point) : Point := ⟨|p.x|, |p.y|⟩

/-- Modelled from the spec: Euclidean magnitude of `point.ts`, §4.1. -/
def Point.length (p : Point) : ℝ := Real.sqrt (p.x ^ 2 + p.y ^ 2)

/-- Dot product, used only to state perpendicularity of offsets. -/
def Point.dot (p q : Point) : ℝ := p.x * q.x + p.y * q.y

/-- The side of a line (`LineSide` of `point.ts`), also the rotational sense. -/
inductive LineSide where
  | left
  | right
deriving DecidableEq

/-- Modelled from the spec: rotation by 90° in the given rotational sense,
`point.ts`, §4.1.  The specification fixes no orientation convention; the
claims only use that the result is a quarter turn. -/
def Point.rotate (p : Point) (side : LineSide) : Point :=
  match side with
  | .left => ⟨p.y, -p.x⟩
  | .right => ⟨-p.y, p.x⟩

/-- Modelled from the spec: `normalize(vector, targetLength)` of `point.ts`
returns a vector of exactly the target length pointing in the same direction
and fails with a domain error on the zero vector (§4.1, §7); the failure is
embedded as `none`. -/
def Point.normalize (p : Point) (targetLength : ℝ) : Option Point :=
  if p.x = 0 ∧ p.y = 0 then none
  else some (p.multiply (targetLength / p.length))

/-- Modelled from the spec: rounding of a coordinate to three decimal places,
applied only at serialization time (§3); `round3` of the missing math
utilities. -/
def round3R (v : ℝ) : ℝ := (round (v * 1000) : ℤ) / 1000

/-- Modelled from the spec: component-wise rounding of a point to three
decimal places (`Point.round3` of `point.ts`). -/
def Point.round3 (p : Point) : Point := ⟨round3R p.x, round3R p.y⟩

/-- Modelled from the spec: an axis-aligned box given by its top-left position
and its size, `box.ts`, §3 and §4.2. -/
structure Box where
  position : Point
  size : Point

/-- The named edges of a box (`BoxSide` of `box.ts`). -/
inductive BoxSide where
  | top
  | right
  | bottom
  | left
deriving DecidableEq

/-- Modelled from the spec: the smallest axis-aligned box containing two
points regardless of their ordering (`BoundingBox` of `box.ts`, §4.2). -/
def BoundingBox (p q : Point) : Box :=
  ⟨⟨min p.x q.x, min p.y q.y⟩, ⟨|p.x - q.x|, |p.y - q.y|⟩⟩

/-- Modelled from the spec: `pointAt(side, offset)` of `box.ts` returns the
midpoint of the requested edge moved outward, perpendicular to that edge, by
the offset — used so connector lines terminate just outside a shape's visible
boundary (§4.2, §4.4; the `L − 2m` property of §8 fixes the outward sign).
The y axis points downward as in SVG, so the top edge has the smaller y. -/
def Box.pointAt (b : Box) (side : BoxSide) (offset : ℝ) : Point :=
  match side with
  | .top => ⟨b.position.x + b.size.x / 2, b.position.y - offset⟩
  | .right => ⟨b.position.x + b.size.x + offset, b.position.y + b.size.y / 2⟩
  | .bottom => ⟨b.position.x + b.size.x / 2, b.position.y + b.size.y + offset⟩
  | .left => ⟨b.position.x - offset, b.position.y + b.size.y / 2⟩

/-- The marker positions of `marker.ts` (`'start' | 'mid' | 'end'`). -/
inductive Marker where
  | start
  | mid
  | «end»
deriving DecidableEq

/-- Modelled from the spec: `markerOffset(marker, side)` of `marker.ts` is the
physical length of the marker when one is present at the given end and zero
otherwise (§4.4).  The specification gives no numeric value for the physical
length, so it enters as the explicit first argument `len`. -/
def markerOffset (len : ℝ) (marker : List Marker) (side : Marker) : ℝ :=
  if side ∈ marker then len else 0

/-- The closed color palette of the external stylesheet (`_svg.scss`). -/
inductive Color where
  | blue
  | purple
  | pink
  | red
  | orange
  | yellow
  | green
  | brown
  | gray
  | text
  | background
deriving DecidableEq

/-- Horizontal alignment of a text block (`text.ts`). -/
inductive HorizontalAlignment where
  | left
  | center
  | right
deriving DecidableEq

/-- Vertical alignment of a text block (`text.ts`). -/
inductive VerticalAlignment where
  | top
  | center
  | bottom
deriving DecidableEq

/-- A pair of independent axis alignment choices (`Alignment` of `text.ts`). -/
structure Alignment where
  horizontalAlignment : HorizontalAlignment
  verticalAlignment : VerticalAlignment
deriving DecidableEq

/-- `determineAlignment` of `line.ts` (lines 99–118 of the source): chooses
the label alignment from an offset vector, with a 4:1 dead zone forcing the
dominated axis to `center`. -/
def determineAlignment (offset : Point) : Alignment :=
  let absoluteOffset := offset.absolute
  let horizontalAlignment : HorizontalAlignment :=
    if absoluteOffset.y > absoluteOffset.x * 4 then .center
    else if offset.x > 0 then .left
    else .right
  let verticalAlignment : VerticalAlignment :=
    if absoluteOffset.x > absoluteOffset.y * 4 then .center
    else if offset.y > 0 then .top
    else .bottom
  ⟨horizontalAlignment, verticalAlignment⟩

/-- Modelled from the spec: the fixed standoff distance between a line and a
text block placed beside it (`lineToTextDistance` of `constants.ts`, §4.4).
The specification gives no numeric value; the proofs only use that it is a
fixed nonnegative constant. -/
def lineToTextDistance : ℝ := 12

/-- A text element as produced by `Line.text` (`Text` of `text.ts`): an anchor
position, the text itself, the two alignment choices and an optional color. -/
structure Text where
  position : Point
  text : String
  horizontalAlignment : HorizontalAlignment
  verticalAlignment : VerticalAlignment
  color : Option Color

/-- The overridable part of the text properties accepted by `Line.text`
(`Omit<TextProps, 'position' | 'text'>` in the source): a `some` field
overrides the computed default, mirroring the object spread `...props`. -/
structure TextOptProps where
  horizontalAlignment : Option HorizontalAlignment := none
  verticalAlignment : Option VerticalAlignment := none
  color : Option Color := none

/-- `LineProps` of `line.ts` (lines 120–124 of the source): the two endpoints
together with the optional marker list and the shared optional color. -/
structure LineProps where
  start : Point
  «end» : Point
  marker : Option (List Marker) := none
  color : Option Color := none

/-- The `Line` element of `line.ts` (lines 126–174 of the source). -/
structure Line where
  props : LineProps

/-- `Line.vector` (lines 127–129): the direction from start to end. -/
def Line.vector (l : Line) : Point := l.props.«end».subtract l.props.start

/-- `Line.length` (lines 131–133): the Euclidean length of the line. -/
def Line.length (l : Line) : ℝ := l.vector.length

/-- Modelled from the spec: `center()` of the element base class (missing
`element.ts`) is the center of the element's bounding box, which for a line is
the midpoint of its endpoints. -/
def Line.center (l : Line) : Point := (l.props.start.add l.props.«end»).divide 2

/-- `Line._boundingBox` (lines 135–137): the bounding box of the endpoints. -/
def Line.boundingBox (l : Line) : Box := BoundingBox l.props.start l.props.«end»

/-- The `x1`/`y1` coordinate attributes emitted by `Line._encode`
(lines 139–154): the stored start point rounded to three decimal places. -/
def Line.encodedStart (l : Line) : Point := l.props.start.round3

/-- The `x2`/`y2` coordinate attributes emitted by `Line._encode`
(lines 139–154): the stored end point rounded to three decimal places. -/
def Line.encodedEnd (l : Line) : Point := l.props.«end».round3

/-- `Line.text` (lines 156–166): places a text block at the line's midpoint
plus the line's direction rotated to the given side and normalized to the
standoff distance; alignment defaults to `determineAlignment` of that offset
and the color defaults to the line's own, both overridable through `props`.
The domain error of `normalize` on a degenerate line propagates as `none`. -/
def Line.text (l : Line) (txt : String) (side : LineSide) (props : TextOptProps) :
    Option Text :=
  match (l.vector.rotate side).normalize lineToTextDistance with
  | none => none
  | some offset =>
    some { position := l.center.add offset
           text := txt
           horizontalAlignment :=
             props.horizontalAlignment.getD (determineAlignment offset).horizontalAlignment
           verticalAlignment :=
             props.verticalAlignment.getD (determineAlignment offset).verticalAlignment
           color := props.color.orElse fun _ => l.props.color }

/-- `Line.shorten` (lines 168–173): both endpoints pulled inward along the
line's own direction by the given offsets, all other properties kept.  The
domain error of `normalize` on a degenerate line propagates as `none`. -/
def Line.shorten (l : Line) (startOffset endOffset : ℝ) : Option Line :=
  match l.vector.normalize startOffset, l.vector.normalize endOffset with
  | some vs, some ve =>
    some ⟨{ l.props with start := l.props.start.add vs, «end» := l.props.«end».subtract ve }⟩
  | _, _ => none

/-- The properties accepted by `ConnectionLine` and `DiagonalLine`
(`Omit<LineProps, 'start' | 'end'>` in the source). -/
structure ConnectionProps where
  marker : Option (List Marker) := none
  color : Option Color := none

/-- `ConnectionLine` (lines 176–187 of the source): anchors a line to the
named side of each element's bounding box, each endpoint moved out by the
marker offset of its end; the marker defaults to a single end marker.  The
elements enter through their bounding boxes; `len` is the physical marker
length (see `markerOffset`). -/
def ConnectionLine (len : ℝ) (startBox : Box) (startSide : BoxSide)
    (endBox : Box) (endSide : BoxSide) (props : ConnectionProps) : Line :=
  let marker := props.marker.getD [Marker.«end»]
  let start := startBox.pointAt startSide (markerOffset len marker Marker.start)
  let «end» := endBox.pointAt endSide (markerOffset len marker Marker.«end»)
  ⟨{ start := start, «end» := «end», marker := some marker, color := props.color }⟩

/-- `Circle` of the missing `circle.ts`: a center and a radius. -/
structure Circle where
  center : Point
  radius : ℝ

/-- `Ellipse` of the missing `ellipse.ts`: a center and the two radii. -/
structure Ellipse where
  center : Point
  rx : ℝ
  ry : ℝ

/-- Modelled from the spec: `Circle.pointTowards(target, offset)` of the
missing `circle.ts`.  Per §4.4 the result is the point on the curve's
boundary lying on the straight line toward the target (the other shape's
center); the specification describes the result purely as this boundary
point, so the marker offset passed along by `DiagonalLine` does not enter it
(scenario 2 of §8 confirms this: the endpoints land exactly on the two
circumferences although the default end marker is present). -/
def Circle.pointTowards (c : Circle) (target : Point) (_offset : ℝ) : Option Point :=
  ((target.subtract c.center).normalize c.radius).map fun w => c.center.add w

/-- Modelled from the spec: `Ellipse.pointTowards(target, offset)` of the
missing `ellipse.ts`: the point of the ellipse's boundary on the straight
line toward the target, §4.4; the marker offset does not enter the result for
the same reason as for `Circle.pointTowards`. -/
def Ellipse.pointTowards (e : Ellipse) (target : Point) (_offset : ℝ) : Option Point :=
  let v := target.subtract e.center
  if v.x = 0 ∧ v.y = 0 then none
  else some (e.center.add (v.multiply (1 / Real.sqrt ((v.x / e.rx) ^ 2 + (v.y / e.ry) ^ 2))))

/-- The closed union `Circle | Ellipse` accepted by `DiagonalLine`. -/
inductive CurvedShape where
  | circle (c : Circle)
  | ellipse (e : Ellipse)

/-- The center of a curved shape. -/
def CurvedShape.center : CurvedShape → Point
  | .circle c => c.center
  | .ellipse e => e.center

/-- `pointTowards` dispatched over the union. -/
def CurvedShape.pointTowards : CurvedShape → Point → ℝ → Option Point
  | .circle c => c.pointTowards
  | .ellipse e => e.pointTowards

/-- Membership in the boundary curve of a shape: the circle's circumference,
respectively the ellipse's boundary in normalized coordinates. -/
def CurvedShape.onBoundary : CurvedShape → Point → Prop
  | .circle c, p => (p.subtract c.center).length = c.radius
  | .ellipse e, p => ((p.x - e.center.x) / e.rx) ^ 2 + ((p.y - e.center.y) / e.ry) ^ 2 = 1

/-- Positivity of all radii of a shape (the nondegeneracy the spec's callers
must guarantee). -/
def CurvedShape.radiiPos : CurvedShape → Prop
  | .circle c => 0 < c.radius
  | .ellipse e => 0 < e.rx ∧ 0 < e.ry

/-- `DiagonalLine` (lines 189–198 of the source): connects two circles or
ellipses by the line between their boundary points toward each other's
center; the marker defaults to a single end marker.  `len` is the physical
marker length handed to `markerOffset` as in the source. -/
def DiagonalLine (len : ℝ) (startElement endElement : CurvedShape)
    (props : ConnectionProps) : Option Line :=
  let marker := props.marker.getD [Marker.«end»]
  match startElement.pointTowards endElement.center (markerOffset len marker Marker.start),
        endElement.pointTowards startElement.center (markerOffset len marker Marker.«end») with
  | some start, some «end» =>
    some ⟨{ start := start, «end» := «end», marker := some marker, color := props.color }⟩
  | _, _ => none

end

/-- Modelled from the spec: the length of the longest line of a text block,
in characters (fixed-pitch metric assumption of §4.5). -/
def longestLineLength (lines : List String) : ℕ :=
  (lines.map String.length).foldr max 0

/-- Modelled from the spec: `estimateTextSizeWithMargin(lines)` of the
missing `text.ts`, §4.5: a box sized from the longest line's estimated
character width and the line count times a fixed line height, inflated by a
constant margin on all sides.  The specification names no numeric metrics, so
the character width, line height and margin enter as explicit parameters;
the result is the pair (width, height). -/
def estimateTextSizeWithMargin (charWidth lineHeight margin : ℚ)
    (lines : List String) : ℚ × ℚ :=
  (charWidth * longestLineLength lines + 2 * margin,
   lineHeight * lines.length + 2 * margin)

/-! ## Helper lemmas -/

theorem Point.ext_iff {p q : Point} : p = q ↔ p.x = q.x ∧ p.y = q.y := by
  cases p; cases q; simp [Point.mk.injEq]

theorem Point.length_nonneg (p : Point) : 0 ≤ p.length :=
  Real.sqrt_nonneg _

theorem Point.length_eq_zero_iff (p : Point) : p.length = 0 ↔ p.x = 0 ∧ p.y = 0 := by
  unfold Point.length
  rw [Real.sqrt_eq_zero']
  constructor
  · intro h
    constructor
    · nlinarith [sq_nonneg p.x, sq_nonneg p.y]
    · nlinarith [sq_nonneg p.x, sq_nonneg p.y]
  · rintro ⟨hx, hy⟩
    rw [hx, hy]; norm_num

theorem Point.length_pos (p : Point) (h : ¬(p.x = 0 ∧ p.y = 0)) : 0 < p.length := by
  rcases lt_or_eq_of_le p.length_nonneg with h' | h'
  · exact h'
  · exact absurd ((Point.length_eq_zero_iff p).mp h'.symm) h

theorem Point.length_multiply (p : Point) (s : ℝ) :
    (p.multiply s).length = |s| * p.length := by
  unfold Point.length Point.multiply
  rw [show ((⟨p.x * s, p.y * s⟩ : Point).x ^ 2 + (⟨p.x * s, p.y * s⟩ : Point).y ^ 2)
        = s ^ 2 * (p.x ^ 2 + p.y ^ 2) by ring]
  rw [Real.sqrt_mul (sq_nonneg s), Real.sqrt_sq_eq_abs]

theorem Point.length_horizontal (a : ℝ) : (Point.mk a 0).length = |a| := by
  unfold Point.length
  simp [Real.sqrt_sq_eq_abs]

theorem Point.length_vertical (a : ℝ) : (Point.mk 0 a).length = |a| := by
  unfold Point.length
  simp [Real.sqrt_sq_eq_abs]

theorem Point.normalize_of_ne_zero (p : Point) (h : ¬(p.x = 0 ∧ p.y = 0)) (d : ℝ) :
    p.normalize d = some (p.multiply (d / p.length)) := by
  unfold Point.normalize
  rw [if_neg h]

theorem Point.normalize_length (p : Point) (h : ¬(p.x = 0 ∧ p.y = 0)) (d : ℝ) :
    (p.multiply (d / p.length)).length = |d| := by
  have hl := p.length_pos h
  rw [Point.length_multiply, abs_div, abs_of_pos hl, div_mul_cancel₀ _ (ne_of_gt hl)]

theorem Point.rotate_length (p : Point) (side : LineSide) :
    (p.rotate side).length = p.length := by
  cases side <;> · unfold Point.rotate Point.length; ring_nf

theorem Point.rotate_ne_zero (p : Point) (side : LineSide) (h : ¬(p.x = 0 ∧ p.y = 0)) :
    ¬((p.rotate side).x = 0 ∧ (p.rotate side).y = 0) := by
  cases side <;>
  · unfold Point.rotate
    simp only [neg_eq_zero]
    tauto

theorem Point.dot_rotate (p : Point) (side : LineSide) : p.dot (p.rotate side) = 0 := by
  cases side <;> · unfold Point.dot Point.rotate; ring

theorem Line.vector_ne_zero (l : Line) (h : l.props.start ≠ l.props.«end») :
    ¬(l.vector.x = 0 ∧ l.vector.y = 0) := by
  rintro ⟨hx, hy⟩
  apply h
  have hx' : l.props.«end».x - l.props.start.x = 0 := hx
  have hy' : l.props.«end».y - l.props.start.y = 0 := hy
  exact Point.ext_iff.mpr ⟨by linarith, by linarith⟩

/-! ## Claim theorems -/

/-- C1: `determineAlignment` returns horizontal alignment `center` whenever
`|offset.y| > 4 * |offset.x|`, and otherwise a non-center horizontal
alignment matching the sign of `offset.x` (positive x gives `left`, negative
x gives `right`); symmetrically it returns vertical alignment `center`
whenever `|offset.x| > 4 * |offset.y|`, and otherwise `top` for positive
`offset.y` and `bottom` for negative `offset.y`. -/
theorem determineAlignment_spec (offset : Point) :
    (|offset.y| > 4 * |offset.x| →
      (determineAlignment offset).horizontalAlignment = HorizontalAlignment.center) ∧
    (¬ |offset.y| > 4 * |offset.x| → 0 < offset.x →
      (determineAlignment offset).horizontalAlignment = HorizontalAlignment.left) ∧
    (¬ |offset.y| > 4 * |offset.x| → offset.x < 0 →
      (determineAlignment offset).horizontalAlignment = HorizontalAlignment.right) ∧
    (|offset.x| > 4 * |offset.y| →
      (determineAlignment offset).verticalAlignment = VerticalAlignment.center) ∧
    (¬ |offset.x| > 4 * |offset.y| → 0 < offset.y →
      (determineAlignment offset).verticalAlignment = VerticalAlignment.top) ∧
    (¬ |offset.x| > 4 * |offset.y| → offset.y < 0 →
      (determineAlignment offset).verticalAlignment = VerticalAlignment.bottom) := by
  dsimp only [determineAlignment, Point.absolute]
  refine ⟨fun h => ?_, fun h hx => ?_, fun h hx => ?_,
          fun h => ?_, fun h hy => ?_, fun h hy => ?_⟩ <;>
    split_ifs <;> first | rfl | (exfalso; push_neg at *; linarith)

/-- C1 witness: at the concrete offset `(1, 10)` the vertical component
dominates by more than 4:1, so the horizontal alignment is `center` and the
vertical alignment follows the sign of y, giving `top`. -/
theorem determineAlignment_spec_witness :
    (determineAlignment ⟨1, 10⟩).horizontalAlignment = HorizontalAlignment.center ∧
    (determineAlignment ⟨1, 10⟩).verticalAlignment = VerticalAlignment.top :=
  ⟨(determineAlignment_spec ⟨1, 10⟩).1 (by norm_num),
   (determineAlignment_spec ⟨1, 10⟩).2.2.2.2.1 (by norm_num) (by norm_num)⟩

/-- C10: at the dead-zone boundary `determineAlignment` does not center: for
`|offset.y|` exactly equal to `4 * |offset.x|` the horizontal alignment
follows the sign branch (and symmetrically for vertical), and the zero offset
gives horizontal `right` and vertical `bottom`. -/
theorem determineAlignment_boundary :
    (∀ o : Point, |o.y| = 4 * |o.x| →
      (determineAlignment o).horizontalAlignment =
        (if 0 < o.x then HorizontalAlignment.left else HorizontalAlignment.right)) ∧
    (∀ o : Point, |o.x| = 4 * |o.y| →
      (determineAlignment o).verticalAlignment =
        (if 0 < o.y then VerticalAlignment.top else VerticalAlignment.bottom)) ∧
    determineAlignment ⟨0, 0⟩ = ⟨HorizontalAlignment.right, VerticalAlignment.bottom⟩ := by
  refine ⟨fun o h => ?_, fun o h => ?_, ?_⟩
  · dsimp only [determineAlignment, Point.absolute]
    split_ifs <;> first | rfl | (exfalso; push_neg at *; linarith)
  · dsimp only [determineAlignment, Point.absolute]
    split_ifs <;> first | rfl | (exfalso; push_neg at *; linarith)
  · dsimp only [determineAlignment, Point.absolute]
    norm_num

/-- C10 witness: the offset `(1, 4)` sits exactly on the horizontal dead-zone
boundary and gets the sign-branch alignment `left`, and the zero offset gets
`right`/`bottom`. -/
theorem determineAlignment_boundary_witness :
    (determineAlignment ⟨1, 4⟩).horizontalAlignment = HorizontalAlignment.left ∧
    determineAlignment ⟨0, 0⟩ = ⟨HorizontalAlignment.right, VerticalAlignment.bottom⟩ := by
  constructor
  · rw [determineAlignment_boundary.1 ⟨1, 4⟩ (by norm_num)]
    norm_num
  · exact determineAlignment_boundary.2.2

theorem Point.add_subtract_cancel (p w : Point) : (p.add w).subtract p = w := by
  apply Point.ext_iff.mpr
  constructor <;> (dsimp [Point.add, Point.subtract]; ring)

theorem Point.sub_sub_length (p w : Point) : ((p.subtract w).subtract p).length = w.length := by
  unfold Point.subtract Point.length
  dsimp
  ring_nf

/-- C6: `normalize` fails (returns `none`, the embedded domain error) exactly
on the zero vector, a successful result is never NaN-bearing (it has exactly
the requested magnitude), and consequently `Line.shorten` and `Line.text`
on a line whose start equals its end fail rather than produce degenerate
coordinates. -/
theorem normalize_zero_vector_fails :
    (∀ d : ℝ, Point.normalize ⟨0, 0⟩ d = none) ∧
    (∀ (v : Point) (d : ℝ), v.normalize d = none ↔ v.x = 0 ∧ v.y = 0) ∧
    (∀ (v : Point) (d : ℝ), ¬(v.x = 0 ∧ v.y = 0) →
      ∃ w, v.normalize d = some w ∧ w.length = |d|) ∧
    (∀ l : Line, l.props.start = l.props.«end» →
      (∀ a b, l.shorten a b = none) ∧
      (∀ txt side props, l.text txt side props = none)) := by
  have hnone : ∀ (v : Point) (d : ℝ), v.x = 0 ∧ v.y = 0 → v.normalize d = none := by
    intro v d hv
    unfold Point.normalize
    rw [if_pos hv]
  refine ⟨fun d => hnone ⟨0, 0⟩ d ⟨rfl, rfl⟩, fun v d => ?_, fun v d hv => ?_, fun l hl => ?_⟩
  · constructor
    · intro h
      by_contra hv
      rw [v.normalize_of_ne_zero hv d] at h
      exact Option.some_ne_none _ h
    · exact hnone v d
  · exact ⟨_, v.normalize_of_ne_zero hv d, v.normalize_length hv d⟩
  · have hvec : l.vector.x = 0 ∧ l.vector.y = 0 := by
      unfold Line.vector Point.subtract
      rw [hl]
      exact ⟨sub_self _, sub_self _⟩
    constructor
    · intro a b
      unfold Line.shorten
      rw [hnone l.vector a hvec]
    · intro txt side props
      have hrot : (l.vector.rotate side).x = 0 ∧ (l.vector.rotate side).y = 0 := by
        cases side <;>
        · unfold Point.rotate
          exact ⟨by simp [hvec.1, hvec.2], by simp [hvec.1, hvec.2]⟩
      unfold Line.text
      rw [hnone (l.vector.rotate side) lineToTextDistance hrot]

/-- C6 witness: at the concrete degenerate inputs, `normalize` of the zero
vector with target length 7 fails, and `shorten` and `text` of the
zero-length line at `(5, 5)` fail as well. -/
theorem normalize_zero_vector_fails_witness :
    Point.normalize ⟨0, 0⟩ 7 = none ∧
    Line.shorten ⟨⟨⟨5, 5⟩, ⟨5, 5⟩, none, none⟩⟩ 3 4 = none ∧
    Line.text ⟨⟨⟨5, 5⟩, ⟨5, 5⟩, none, none⟩⟩ "label" LineSide.left {} = none :=
  ⟨normalize_zero_vector_fails.1 7,
   (normalize_zero_vector_fails.2.2.2 ⟨⟨⟨5, 5⟩, ⟨5, 5⟩, none, none⟩⟩ rfl).1 3 4,
   (normalize_zero_vector_fails.2.2.2 ⟨⟨⟨5, 5⟩, ⟨5, 5⟩, none, none⟩⟩ rfl).2 "label"
     LineSide.left {}⟩

/-- C4: `Line.shorten (a, b)` of a non-degenerate line succeeds and returns a
new line whose start has moved from the old start by distance `|a|` along the
line's own direction (the displacement is `t`-times the direction vector with
`t * length = a`), and symmetrically whose end has moved inward by `|b|`; in
particular the line from `(0,0)` to `(100,0)` shortened by 10 on each end is
the line from `(10,0)` to `(90,0)`. -/
theorem shorten_spec :
    (∀ (l : Line) (a b : ℝ), l.props.start ≠ l.props.«end» →
      ∃ l', l.shorten a b = some l' ∧
        (l'.props.start.subtract l.props.start).length = |a| ∧
        (l'.props.«end».subtract l.props.«end»).length = |b| ∧
        (∃ t : ℝ, l'.props.start = l.props.start.add (l.vector.multiply t) ∧
          t * l.length = a) ∧
        (∃ u : ℝ, l'.props.«end» = l.props.«end».subtract (l.vector.multiply u) ∧
          u * l.length = b)) ∧
    Line.shorten ⟨⟨⟨0, 0⟩, ⟨100, 0⟩, none, none⟩⟩ 10 10 =
      some ⟨⟨⟨10, 0⟩, ⟨90, 0⟩, none, none⟩⟩ := by
  constructor
  · intro l a b h
    have hv := l.vector_ne_zero h
    have hlen : l.vector.length ≠ 0 := ne_of_gt (l.vector.length_pos hv)
    refine ⟨⟨{ l.props with
               start := l.props.start.add (l.vector.multiply (a / l.vector.length)),
               «end» := l.props.«end».subtract (l.vector.multiply (b / l.vector.length)) }⟩,
            ?_, ?_, ?_, ?_, ?_⟩
    · unfold Line.shorten
      rw [l.vector.normalize_of_ne_zero hv a, l.vector.normalize_of_ne_zero hv b]
    · rw [show ((⟨{ l.props with
               start := l.props.start.add (l.vector.multiply (a / l.vector.length)),
               «end» := l.props.«end».subtract (l.vector.multiply (b / l.vector.length)) }⟩ :
               Line).props.start.subtract l.props.start)
            = l.vector.multiply (a / l.vector.length)
          from l.props.start.add_subtract_cancel _]
      exact l.vector.normalize_length hv a
    · exact (l.props.«end».sub_sub_length _).trans (l.vector.normalize_length hv b)
    · exact ⟨a / l.vector.length, rfl, div_mul_cancel₀ a hlen⟩
    · exact ⟨b / l.vector.length, rfl, div_mul_cancel₀ b hlen⟩
  · have hs : Real.sqrt (10000 : ℝ) = 100 := by
      rw [show (10000 : ℝ) = 100 ^ 2 by norm_num, Real.sqrt_sq (by norm_num)]
    unfold Line.shorten Line.vector Point.normalize Point.subtract Point.length
      Point.multiply Point.add
    norm_num [hs]

/-- C4 witness: applying the theorem to the concrete line from `(0,0)` to
`(3,4)` with offsets 1 and 2, whose hypothesis (distinct endpoints) is
discharged numerically. -/
theorem shorten_spec_witness :
    ∃ l', Line.shorten ⟨⟨⟨0, 0⟩, ⟨3, 4⟩, none, none⟩⟩ 1 2 = some l' ∧
      (l'.props.start.subtract ⟨0, 0⟩).length = |(1 : ℝ)| := by
  obtain ⟨l', h1, h2, -⟩ :=
    shorten_spec.1 ⟨⟨⟨0, 0⟩, ⟨3, 4⟩, none, none⟩⟩ 1 2
      (by rw [Ne, Point.ext_iff]; push_neg; intro h; norm_num)
  exact ⟨l', h1, h2⟩

/-- C5: for a line with distinct endpoints, `Line.text` returns a text block
anchored at the line's midpoint plus an offset that is the line's direction
rotated 90° to the given side (a positive multiple of the rotated vector,
hence perpendicular to the line) normalized to the fixed standoff distance
`lineToTextDistance`; its alignment is `determineAlignment` of that offset
and its color is the line's own color, each when `props` does not specify
one. -/
theorem line_text_spec (l : Line) (txt : String) (side : LineSide) (props : TextOptProps)
    (h : l.props.start ≠ l.props.«end») :
    ∃ (t : Text) (offset : Point),
      l.text txt side props = some t ∧
      t.position = l.center.add offset ∧
      l.vector.dot offset = 0 ∧
      offset.length = lineToTextDistance ∧
      (∃ s : ℝ, 0 < s ∧ offset = (l.vector.rotate side).multiply s) ∧
      (props.horizontalAlignment = none →
        t.horizontalAlignment = (determineAlignment offset).horizontalAlignment) ∧
      (props.verticalAlignment = none →
        t.verticalAlignment = (determineAlignment offset).verticalAlignment) ∧
      (props.color = none → t.color = l.props.color) ∧
      t.text = txt := by
  have hv := l.vector_ne_zero h
  have hrot := l.vector.rotate_ne_zero side hv
  have hlenpos := (l.vector.rotate side).length_pos hrot
  have htext : l.text txt side props = some
      { position := l.center.add ((l.vector.rotate side).multiply
          (lineToTextDistance / (l.vector.rotate side).length))
        text := txt
        horizontalAlignment := props.horizontalAlignment.getD
          (determineAlignment ((l.vector.rotate side).multiply
            (lineToTextDistance / (l.vector.rotate side).length))).horizontalAlignment
        verticalAlignment := props.verticalAlignment.getD
          (determineAlignment ((l.vector.rotate side).multiply
            (lineToTextDistance / (l.vector.rotate side).length))).verticalAlignment
        color := props.color.orElse fun _ => l.props.color } := by
    unfold Line.text
    rw [(l.vector.rotate side).normalize_of_ne_zero hrot]
  refine ⟨_, (l.vector.rotate side).multiply
      (lineToTextDistance / (l.vector.rotate side).length),
      htext, rfl, ?_, ?_, ?_, ?_, ?_, ?_, rfl⟩
  · cases side <;> (unfold Point.dot Point.multiply Point.rotate Line.vector Point.subtract; ring)
  · rw [(l.vector.rotate side).normalize_length hrot, abs_of_nonneg]
    unfold lineToTextDistance
    norm_num
  · exact ⟨lineToTextDistance / (l.vector.rotate side).length,
      div_pos (by unfold lineToTextDistance; norm_num) hlenpos, rfl⟩
  · intro hp
    dsimp only
    rw [hp]
    rfl
  · intro hp
    dsimp only
    rw [hp]
    rfl
  · intro hp
    dsimp only
    rw [hp]
    rfl

/-- C5 witness: applying the theorem to the concrete vertical line from
`(0,0)` to `(0,5)` with empty override properties, whose hypothesis (distinct
endpoints) is discharged numerically; the produced text inherits the line's
(absent) color and stands off by `lineToTextDistance`. -/
theorem line_text_spec_witness :
    ∃ (t : Text) (offset : Point),
      Line.text ⟨⟨⟨0, 0⟩, ⟨0, 5⟩, none, none⟩⟩ "hi" LineSide.left {} = some t ∧
      offset.length = lineToTextDistance ∧ t.color = none := by
  obtain ⟨t, offset, h1, -, -, h4, -, -, -, hc, -⟩ :=
    line_text_spec ⟨⟨⟨0, 0⟩, ⟨0, 5⟩, none, none⟩⟩ "hi" LineSide.left {}
      (by rw [Ne, Point.ext_iff]; push_neg; intro h'; norm_num)
  exact ⟨t, offset, h1, h4, hc rfl⟩

/-- C2: for a `ConnectionLine` between two boxes whose facing sides (right
to left, respectively bottom to top) are separated by distance `L` and whose
facing edge centers are aligned, with a marker of physical length `len`
present at each end, the resulting line's `length()` is `L - 2 * len`. -/
theorem connectionLine_length :
    (∀ (len L : ℝ) (b₁ b₂ : Box) (color : Option Color),
      0 ≤ len → 2 * len ≤ L →
      b₂.position.x = b₁.position.x + b₁.size.x + L →
      b₁.position.y + b₁.size.y / 2 = b₂.position.y + b₂.size.y / 2 →
      (ConnectionLine len b₁ BoxSide.right b₂ BoxSide.left
        ⟨some [Marker.start, Marker.«end»], color⟩).length = L - 2 * len) ∧
    (∀ (len L : ℝ) (b₁ b₂ : Box) (color : Option Color),
      0 ≤ len → 2 * len ≤ L →
      b₂.position.y = b₁.position.y + b₁.size.y + L →
      b₁.position.x + b₁.size.x / 2 = b₂.position.x + b₂.size.x / 2 →
      (ConnectionLine len b₁ BoxSide.bottom b₂ BoxSide.top
        ⟨some [Marker.start, Marker.«end»], color⟩).length = L - 2 * len) := by
  constructor
  · intro len L b₁ b₂ color h0 hL h3 h4
    have hstart : (ConnectionLine len b₁ BoxSide.right b₂ BoxSide.left
        ⟨some [Marker.start, Marker.«end»], color⟩).props.start =
        ⟨b₁.position.x + b₁.size.x + len, b₁.position.y + b₁.size.y / 2⟩ := by
      simp [ConnectionLine, Box.pointAt, markerOffset]
    have hend : (ConnectionLine len b₁ BoxSide.right b₂ BoxSide.left
        ⟨some [Marker.start, Marker.«end»], color⟩).props.«end» =
        ⟨b₂.position.x - len, b₂.position.y + b₂.size.y / 2⟩ := by
      simp [ConnectionLine, Box.pointAt, markerOffset]
    have hvec : (ConnectionLine len b₁ BoxSide.right b₂ BoxSide.left
        ⟨some [Marker.start, Marker.«end»], color⟩).vector = ⟨L - 2 * len, 0⟩ := by
      unfold Line.vector
      rw [hstart, hend]
      apply Point.ext_iff.mpr
      constructor
      · dsimp [Point.subtract]
        linarith
      · dsimp [Point.subtract]
        linarith
    unfold Line.length
    rw [hvec, Point.length_horizontal, abs_of_nonneg (by linarith)]
  · intro len L b₁ b₂ color h0 hL h3 h4
    have hstart : (ConnectionLine len b₁ BoxSide.bottom b₂ BoxSide.top
        ⟨some [Marker.start, Marker.«end»], color⟩).props.start =
        ⟨b₁.position.x + b₁.size.x / 2, b₁.position.y + b₁.size.y + len⟩ := by
      simp [ConnectionLine, Box.pointAt, markerOffset]
    have hend : (ConnectionLine len b₁ BoxSide.bottom b₂ BoxSide.top
        ⟨some [Marker.start, Marker.«end»], color⟩).props.«end» =
        ⟨b₂.position.x + b₂.size.x / 2, b₂.position.y - len⟩ := by
      simp [ConnectionLine, Box.pointAt, markerOffset]
    have hvec : (ConnectionLine len b₁ BoxSide.bottom b₂ BoxSide.top
        ⟨some [Marker.start, Marker.«end»], color⟩).vector = ⟨0, L - 2 * len⟩ := by
      unfold Line.vector
      rw [hstart, hend]
      apply Point.ext_iff.mpr
      constructor
      · dsimp [Point.subtract]
        linarith
      · dsimp [Point.subtract]
        linarith
    unfold Line.length
    rw [hvec, Point.length_vertical, abs_of_nonneg (by linarith)]

/-- C2 witness: two 10×10 boxes whose facing vertical sides are 100 apart
with aligned centers, markers of length 4 at both ends: the connection line
measures 92. -/
theorem connectionLine_length_witness :
    (ConnectionLine 4 ⟨⟨0, 0⟩, ⟨10, 10⟩⟩ BoxSide.right ⟨⟨110, 0⟩, ⟨10, 10⟩⟩ BoxSide.left
      ⟨some [Marker.start, Marker.«end»], none⟩).length = 92 := by
  have h := connectionLine_length.1 4 100 ⟨⟨0, 0⟩, ⟨10, 10⟩⟩ ⟨⟨110, 0⟩, ⟨10, 10⟩⟩ none
    (by norm_num) (by norm_num) (by norm_num) (by norm_num)
  rw [h]
  norm_num

theorem ellipse_onBoundary_aux (e : Ellipse) (v : Point)
    (hS : 0 < (v.x / e.rx) ^ 2 + (v.y / e.ry) ^ 2) :
    CurvedShape.onBoundary (.ellipse e)
      (e.center.add (v.multiply
        (1 / Real.sqrt ((v.x / e.rx) ^ 2 + (v.y / e.ry) ^ 2)))) := by
  have hA2 : Real.sqrt ((v.x / e.rx) ^ 2 + (v.y / e.ry) ^ 2) ^ 2
      = (v.x / e.rx) ^ 2 + (v.y / e.ry) ^ 2 := Real.sq_sqrt hS.le
  unfold CurvedShape.onBoundary
  dsimp [Point.add, Point.multiply]
  rw [show ((e.center.x + v.x * (1 / Real.sqrt ((v.x / e.rx) ^ 2 + (v.y / e.ry) ^ 2))
            - e.center.x) / e.rx) ^ 2 +
          ((e.center.y + v.y * (1 / Real.sqrt ((v.x / e.rx) ^ 2 + (v.y / e.ry) ^ 2))
            - e.center.y) / e.ry) ^ 2
        = ((v.x / e.rx) ^ 2 + (v.y / e.ry) ^ 2) *
          (Real.sqrt ((v.x / e.rx) ^ 2 + (v.y / e.ry) ^ 2) ^ 2)⁻¹ by
        rw [← inv_pow]; ring]
  rw [hA2]
  exact mul_inv_cancel₀ (ne_of_gt hS)

/-- The common core of `DiagonalLine`: for a nondegenerate shape whose center
differs from the target, `pointTowards` succeeds, lands on the shape's
boundary, and lies on the ray from the center toward the target. -/
theorem CurvedShape.pointTowards_spec (s : CurvedShape) (target : Point) (offset : ℝ)
    (hne : s.center ≠ target) (hrad : s.radiiPos) :
    ∃ p, s.pointTowards target offset = some p ∧ s.onBoundary p ∧
      ∃ t : ℝ, 0 < t ∧ p = s.center.add ((target.subtract s.center).multiply t) := by
  have hv : ¬((target.subtract s.center).x = 0 ∧ (target.subtract s.center).y = 0) := by
    rintro ⟨hx, hy⟩
    apply hne
    have hx' : target.x - s.center.x = 0 := hx
    have hy' : target.y - s.center.y = 0 := hy
    exact Point.ext_iff.mpr ⟨by linarith, by linarith⟩
  cases s with
  | circle c =>
    have hvc : ¬((target.subtract c.center).x = 0 ∧ (target.subtract c.center).y = 0) := hv
    have hrc : 0 < c.radius := hrad
    refine ⟨c.center.add ((target.subtract c.center).multiply
      (c.radius / (target.subtract c.center).length)), ?_, ?_, ?_⟩
    · show c.pointTowards target offset = _
      unfold Circle.pointTowards
      rw [(target.subtract c.center).normalize_of_ne_zero hvc]
      rfl
    · show ((c.center.add _).subtract c.center).length = c.radius
      rw [Point.add_subtract_cancel, (target.subtract c.center).normalize_length hvc,
          abs_of_pos hrc]
    · exact ⟨c.radius / (target.subtract c.center).length,
        div_pos hrc ((target.subtract c.center).length_pos hvc), rfl⟩
  | ellipse e =>
    obtain ⟨hrx, hry⟩ : 0 < e.rx ∧ 0 < e.ry := hrad
    have hve : ¬((target.subtract e.center).x = 0 ∧ (target.subtract e.center).y = 0) := hv
    have hS : 0 < ((target.subtract e.center).x / e.rx) ^ 2 +
        ((target.subtract e.center).y / e.ry) ^ 2 := by
      rcases not_and_or.mp hve with h | h
      · have h2 : 0 < ((target.subtract e.center).x / e.rx) ^ 2 :=
          (sq_nonneg _).lt_of_ne (Ne.symm (pow_ne_zero 2 (div_ne_zero h (ne_of_gt hrx))))
        nlinarith [sq_nonneg ((target.subtract e.center).y / e.ry)]
      · have h2 : 0 < ((target.subtract e.center).y / e.ry) ^ 2 :=
          (sq_nonneg _).lt_of_ne (Ne.symm (pow_ne_zero 2 (div_ne_zero h (ne_of_gt hry))))
        nlinarith [sq_nonneg ((target.subtract e.center).x / e.rx)]
    refine ⟨e.center.add ((target.subtract e.center).multiply
      (1 / Real.sqrt (((target.subtract e.center).x / e.rx) ^ 2 +
                      ((target.subtract e.center).y / e.ry) ^ 2))), ?_, ?_, ?_⟩
    · show e.pointTowards target offset = _
      unfold Ellipse.pointTowards
      dsimp only
      rw [if_neg hve]
    · exact ellipse_onBoundary_aux e (target.subtract e.center) hS
    · exact ⟨1 / Real.sqrt (((target.subtract e.center).x / e.rx) ^ 2 +
          ((target.subtract e.center).y / e.ry) ^ 2),
        div_pos one_pos (Real.sqrt_pos.mpr hS), rfl⟩

/-- C3: two circles of radius 16 centered at `(0,0)` and `(200,0)` connected
by a `DiagonalLine` with default properties give the line from exactly
`(16,0)` to `(184,0)` (independently of the physical marker length), and in
general each endpoint of a `DiagonalLine` between nondegenerate circles or
ellipses with distinct centers lies on its shape's boundary, on the straight
line toward the other shape's center. -/
theorem diagonalLine_spec :
    (∀ len : ℝ,
      DiagonalLine len (.circle ⟨⟨0, 0⟩, 16⟩) (.circle ⟨⟨200, 0⟩, 16⟩) {} =
        some ⟨⟨⟨16, 0⟩, ⟨184, 0⟩, some [Marker.«end»], none⟩⟩) ∧
    (∀ (len : ℝ) (s₁ s₂ : CurvedShape) (props : ConnectionProps),
      s₁.center ≠ s₂.center → s₁.radiiPos → s₂.radiiPos →
      ∃ l, DiagonalLine len s₁ s₂ props = some l ∧
        s₁.onBoundary l.props.start ∧ s₂.onBoundary l.props.«end» ∧
        (∃ t : ℝ, 0 < t ∧
          l.props.start = s₁.center.add ((s₂.center.subtract s₁.center).multiply t)) ∧
        (∃ u : ℝ, 0 < u ∧
          l.props.«end» = s₂.center.add ((s₁.center.subtract s₂.center).multiply u))) := by
  constructor
  · intro len
    have hs : Real.sqrt (40000 : ℝ) = 200 := by
      rw [show (40000 : ℝ) = 200 ^ 2 by norm_num, Real.sqrt_sq (by norm_num)]
    unfold DiagonalLine CurvedShape.pointTowards Circle.pointTowards CurvedShape.center
      Point.normalize Point.subtract Point.length Point.multiply Point.add
    norm_num [hs]
  · intro len s₁ s₂ props hne h₁ h₂
    obtain ⟨p₁, hp₁, hb₁, t, ht, hpt⟩ := s₁.pointTowards_spec s₂.center
      (markerOffset len (props.marker.getD [Marker.«end»]) Marker.start) hne h₁
    obtain ⟨p₂, hp₂, hb₂, u, hu, hpu⟩ := s₂.pointTowards_spec s₁.center
      (markerOffset len (props.marker.getD [Marker.«end»]) Marker.«end») (Ne.symm hne) h₂
    refine ⟨⟨⟨p₁, p₂, some (props.marker.getD [Marker.«end»]), props.color⟩⟩,
      ?_, hb₁, hb₂, ⟨t, ht, hpt⟩, ⟨u, hu, hpu⟩⟩
    unfold DiagonalLine
    dsimp only
    rw [hp₁, hp₂]

/-- C3 witness: applying the general part of the theorem to the circles of
radius 1 at the origin and radius 2 at `(3,4)` with marker length 5,
discharging the distinct-centers and positive-radius hypotheses numerically. -/
theorem diagonalLine_spec_witness :
    ∃ l, DiagonalLine 5 (.circle ⟨⟨0, 0⟩, 1⟩) (.circle ⟨⟨3, 4⟩, 2⟩) {} = some l ∧
      CurvedShape.onBoundary (.circle ⟨⟨0, 0⟩, 1⟩) l.props.start := by
  obtain ⟨l, h1, h2, -⟩ :=
    diagonalLine_spec.2 5 (.circle ⟨⟨0, 0⟩, 1⟩) (.circle ⟨⟨3, 4⟩, 2⟩) {}
      (by show (⟨0, 0⟩ : Point) ≠ ⟨3, 4⟩
          rw [Ne, Point.ext_iff]
          push_neg
          intro h'
          norm_num)
      (show (0 : ℝ) < 1 by norm_num)
      (show (0 : ℝ) < 2 by norm_num)
  exact ⟨l, h1, h2⟩

theorem round3R_half_thousandth : round3R (1 / 2000 : ℝ) = 1 / 1000 := by
  unfold round3R
  rw [show (1 / 2000 : ℝ) * 1000 = 1 / 2 by norm_num, round_eq,
      show (1 / 2 + 1 / 2 : ℝ) = 1 by norm_num]
  norm_num

theorem round3R_zero : round3R (0 : ℝ) = 0 := by
  unfold round3R
  rw [show (0 : ℝ) * 1000 = 0 by norm_num, round_zero]
  norm_num

/-- C7: rounding to three decimals happens only at serialization: the
`x1`/`y1`/`x2`/`y2` attributes emitted by `Line._encode` are the
three-decimal roundings of the stored exact endpoints, while `shorten` keeps
full precision — the line from `(0,0)` to `(100,0)` shortened by `1/2000` on
each end stores the exact start `(1/2000, 0)`, a value not fixed by `round3`
(so no intermediate rounding was applied to it), yet its encoded `x1` is the
rounded `1/1000`. -/
theorem encode_rounding :
    (∀ l : Line,
      l.encodedStart = l.props.start.round3 ∧ l.encodedEnd = l.props.«end».round3) ∧
    (∃ l' : Line,
      Line.shorten ⟨⟨⟨0, 0⟩, ⟨100, 0⟩, none, none⟩⟩ (1 / 2000) (1 / 2000) = some l' ∧
      l'.props.start = ⟨1 / 2000, 0⟩ ∧
      l'.props.start.round3 ≠ l'.props.start ∧
      l'.encodedStart = ⟨1 / 1000, 0⟩) := by
  refine ⟨fun l => ⟨rfl, rfl⟩, ⟨⟨⟨1 / 2000, 0⟩, ⟨100 - 1 / 2000, 0⟩, none, none⟩⟩, ?_, rfl, ?_, ?_⟩
  · have hs : Real.sqrt (10000 : ℝ) = 100 := by
      rw [show (10000 : ℝ) = 100 ^ 2 by norm_num, Real.sqrt_sq (by norm_num)]
    unfold Line.shorten Line.vector Point.normalize Point.subtract Point.length
      Point.multiply Point.add
    norm_num [hs]
  · rw [show (⟨⟨⟨1 / 2000, 0⟩, ⟨100 - 1 / 2000, 0⟩, none, none⟩⟩ :
        Line).props.start.round3 = ⟨round3R (1 / 2000), round3R 0⟩ from rfl,
        round3R_half_thousandth, round3R_zero]
    intro hcontra
    have h' : (1 / 1000 : ℝ) = 1 / 2000 := congrArg Point.x hcontra
    norm_num at h'
  · rw [show (⟨⟨⟨1 / 2000, 0⟩, ⟨100 - 1 / 2000, 0⟩, none, none⟩⟩ :
        Line).encodedStart = ⟨round3R (1 / 2000), round3R 0⟩ from rfl,
        round3R_half_thousandth, round3R_zero]

/-- C8: `shorten` and `text` are pure functions of the receiving line's
stored properties — lines with equal properties give equal results, so no
hidden state takes part — and the derived line returned by `shorten` is a new
value that inherits the original's color and marker unchanged (only the two
endpoints are overridden); the original, being a value, is untouched. -/
theorem shorten_text_pure :
    (∀ (l₁ l₂ : Line) (a b : ℝ), l₁.props = l₂.props →
      l₁.shorten a b = l₂.shorten a b ∧
      ∀ txt side props, l₁.text txt side props = l₂.text txt side props) ∧
    (∀ (l : Line) (a b : ℝ) (l' : Line), l.shorten a b = some l' →
      l'.props.color = l.props.color ∧ l'.props.marker = l.props.marker) := by
  constructor
  · intro l₁ l₂ a b h
    cases l₁
    cases l₂
    cases h
    exact ⟨rfl, fun _ _ _ => rfl⟩
  · intro l a b l' h
    unfold Line.shorten at h
    rcases hva : l.vector.normalize a with _ | vs
    · rw [hva] at h
      simp at h
    rcases hvb : l.vector.normalize b with _ | ve
    · rw [hva, hvb] at h
      simp at h
    rw [hva, hvb] at h
    simp only [Option.some.injEq] at h
    subst h
    exact ⟨rfl, rfl⟩

/-- C8 witness: shortening a concrete green line with a start marker by 10 on
each end yields a new line that keeps the color and the marker; the theorem
is applied with the concrete `shorten` result computed explicitly. -/
theorem shorten_text_pure_witness :
    ∃ l', Line.shorten ⟨⟨⟨0, 0⟩, ⟨100, 0⟩, some [Marker.start], some Color.green⟩⟩ 10 10 =
        some l' ∧
      l'.props.color = some Color.green ∧ l'.props.marker = some [Marker.start] := by
  have hs : Real.sqrt (10000 : ℝ) = 100 := by
    rw [show (10000 : ℝ) = 100 ^ 2 by norm_num, Real.sqrt_sq (by norm_num)]
  have hshort : Line.shorten ⟨⟨⟨0, 0⟩, ⟨100, 0⟩, some [Marker.start], some Color.green⟩⟩ 10 10 =
      some ⟨⟨⟨10, 0⟩, ⟨90, 0⟩, some [Marker.start], some Color.green⟩⟩ := by
    unfold Line.shorten Line.vector Point.normalize Point.subtract Point.length
      Point.multiply Point.add
    norm_num [hs]
  obtain ⟨hc, hm⟩ := shorten_text_pure.2 _ 10 10 _ hshort
  exact ⟨_, hshort, hc, hm⟩

/-- C9: `estimateTextSizeWithMargin` (with nonnegative character and line
metrics) is monotonically non-decreasing in both inputs: appending a line
never decreases the returned height, a longest line at least as long never
gives a smaller width, and the function is deterministic — it depends only on
the line count and the longest line's length. -/
theorem estimateTextSize_monotone :
    (∀ (charWidth lineHeight margin : ℚ) (lines : List String) (line : String),
      0 ≤ lineHeight →
      (estimateTextSizeWithMargin charWidth lineHeight margin lines).2 ≤
      (estimateTextSizeWithMargin charWidth lineHeight margin (lines ++ [line])).2) ∧
    (∀ (charWidth lineHeight margin : ℚ) (lines₁ lines₂ : List String),
      0 ≤ charWidth →
      longestLineLength lines₁ ≤ longestLineLength lines₂ →
      (estimateTextSizeWithMargin charWidth lineHeight margin lines₁).1 ≤
      (estimateTextSizeWithMargin charWidth lineHeight margin lines₂).1) ∧
    (∀ (charWidth lineHeight margin : ℚ) (lines₁ lines₂ : List String),
      longestLineLength lines₁ = longestLineLength lines₂ →
      lines₁.length = lines₂.length →
      estimateTextSizeWithMargin charWidth lineHeight margin lines₁ =
      estimateTextSizeWithMargin charWidth lineHeight margin lines₂) := by
  refine ⟨fun charWidth lineHeight margin lines line hlh => ?_,
          fun charWidth lineHeight margin lines₁ lines₂ hcw hlen => ?_,
          fun charWidth lineHeight margin lines₁ lines₂ h₁ h₂ => ?_⟩
  · unfold estimateTextSizeWithMargin
    dsimp only
    have h1 : ((lines.length : ℚ)) ≤ ((lines ++ [line]).length : ℚ) := by
      rw [List.length_append]
      push_cast
      linarith
    have := mul_le_mul_of_nonneg_left h1 hlh
    linarith
  · unfold estimateTextSizeWithMargin
    dsimp only
    have h1 : ((longestLineLength lines₁ : ℚ)) ≤ ((longestLineLength lines₂ : ℚ)) :=
      Nat.cast_le.mpr hlen
    have := mul_le_mul_of_nonneg_left h1 hcw
    linarith
  · unfold estimateTextSizeWithMargin
    rw [h₁, h₂]

/-- C9 witness: with character width 7, line height 20 and margin 8,
appending the line `xyz` to the single-line block `ab` does not decrease the
estimated height. -/
theorem estimateTextSize_monotone_witness :
    (estimateTextSizeWithMargin 7 20 8 ["ab"]).2 ≤
    (estimateTextSizeWithMargin 7 20 8 ["ab", "xyz"]).2 :=
  estimateTextSize_monotone.1 7 20 8 ["ab"] "xyz" (by norm_num)

end SvgEngine
